import Mathlib

/-!
Shallow embedding of the Expense-Tracker personal finance application,
covering the statement-reconciliation matcher (`reanalyzeList` and the
upload-time duplicate filter in `AiTools.tsx`), the confirmation flow
(`confirmAddTransaction`), the remote-sheet refresh merge
(`handleRefreshFromSheet` in the app root), the sheet fetcher
(`fetchTransactions` in the sheet service), and the Database edit modal's
amount/type handlers.

Modelling conventions:
* JavaScript numbers are modelled as rationals (ℚ); `Math.abs` is `|·|`.
* `new Date(s).getTime()` is modelled by an uninterpreted environment
  function `parse : String → Option Int` (milliseconds; `none` stands for
  an invalid date, i.e. `NaN`).
* Optional TypeScript fields are `Option`; JavaScript truthiness of a
  string is "not the empty string", of a number "defined and nonzero".
* Host-library calls (`parseFloat`, `Date → ISO string`, random id
  generation, `fetch`) are uninterpreted functions packed in `JsEnv`,
  or explicit outcome parameters.
-/

namespace ExpenseTracker

-- Batteries marks rational arithmetic `@[irreducible]` for unfolding hygiene;
-- restore reducibility locally so concrete runs of the embedded functions can
-- be checked by `decide`.
attribute [local semireducible] Rat.add Rat.sub Rat.mul Rat.inv Rat.ofScientific

/-- The transaction kind, `'expense' | 'income' | 'investment'` in `types.ts`. -/
inductive TxType where
  | expense
  | income
  | investment
deriving DecidableEq, Repr

/-- Structure `Transaction` from `types.ts`: `note`, `type`, `source` are optional fields. -/
structure Transaction where
  id : String
  date : String
  amount : ℚ
  category : String
  note : Option String := none
  type : Option TxType := none
  source : Option String := none
deriving DecidableEq, Repr

/-- Structure `FoundItem` from `types.ts`: `Partial<Transaction>` with a guaranteed `id`
and an optional `added` flag (absent modelled as `false`). -/
structure FoundItem where
  id : String
  date : Option String := none
  amount : Option ℚ := none
  category : Option String := none
  note : Option String := none
  added : Bool := false
deriving DecidableEq, Repr

/-- Structure `MatchedItemPair` from `types.ts`. -/
structure MatchedItemPair where
  suggested : FoundItem
  matched : Transaction
deriving DecidableEq, Repr

/-- JavaScript `s || d` for an optional string `s`: JavaScript `||` falls through on
`undefined` and on the empty string. -/
def jsOr (s : Option String) (d : String) : String :=
  match s with
  | some v => if v = "" then d else v
  | none => d

/-- Function `getTransactionType` from `constants.ts`. -/
def getTransactionType (category : String) (incomeCategories investmentCategories : List String) :
    TxType :=
  if incomeCategories.contains category then .income
  else if investmentCategories.contains category then .investment
  else .expense

/-! ## The reconciliation matcher (`AiTools.tsx`, `reanalyzeList`) -/

/-- The body of the `transactions.find(existingTx => ...)` callback in
`reanalyzeList` (`AiTools.tsx` lines 98–108): amount must be truthy and within
`0.01` of the existing amount in absolute value; both dates must parse
(`isNaN` guard); the day difference must be at most `10`. -/
def isMatch (parse : String → Option Int) (item : FoundItem) (tx : Transaction) : Bool :=
  match item.amount with
  | none => false
  | some a =>
    if a ≠ 0 ∧ |(|a| - |tx.amount|)| < 0.01 then
      match item.date.bind parse, parse tx.date with
      | some t1, some t2 =>
        let timeDiff : ℚ := |(t1 : ℚ) - (t2 : ℚ)|
        let dayDiff : ℚ := timeDiff / (1000 * 3600 * 24)
        decide (dayDiff ≤ 10)
      | _, _ => false
    else false

/-- The two output lists built by `reanalyzeList`: `itemsToKeep` (handed to
`onReanalyzeComplete`) and `newlyMatched` (prepended to the matched section). -/
structure ReanalyzeOut where
  kept : List FoundItem
  newlyMatched : List MatchedItemPair
deriving DecidableEq, Repr

/-- Function `reanalyzeList` from `AiTools.tsx` (lines 91–120): for each non-`added`
item, look for the first existing transaction satisfying `isMatch`; keep the
item if none is found, otherwise pair it with that transaction. -/
def reanalyzeList (parse : String → Option Int) (transactions : List Transaction) :
    List FoundItem → ReanalyzeOut
  | [] => ⟨[], []⟩
  | item :: rest =>
    let r := reanalyzeList parse transactions rest
    if item.added then r
    else
      match transactions.find? (isMatch parse item) with
      | none => ⟨item :: r.kept, r.newlyMatched⟩
      | some tx => ⟨r.kept, ⟨item, tx⟩ :: r.newlyMatched⟩

/-- The return value of `reanalyzeList`: `newlyMatched.length`. -/
def reanalyzeRet (parse : String → Option Int) (transactions : List Transaction)
    (list : List FoundItem) : Nat :=
  (reanalyzeList parse transactions list).newlyMatched.length

/-- The matching criterion as the specification words it, for comparison with
the code's `isMatch`: given the candidate's (truthy) absolute amount `a` and
parsed date `t`, an existing transaction matches when its absolute amount is
within `0.01` of `a` and its date parses to a time at most ten days away. -/
def specMatch (parse : String → Option Int) (a : ℚ) (t : Int) (tx : Transaction) : Prop :=
  |(|a| - |tx.amount|)| < 0.01 ∧
    ∃ u, parse tx.date = some u ∧ |(t : ℚ) - (u : ℚ)| / (1000 * 3600 * 24) ≤ 10

/-! ## Upload-time duplicate filter (`AiTools.tsx`, `handleFileUpload` lines 60–69) -/

/-- The `suggestedItems` loop of `handleFileUpload`: skip falsy amounts
(`continue`), drop a scanned item when some existing transaction has an
absolute amount within `0.01` (no date is consulted), keep it otherwise. -/
def uploadSuggested (transactions : List Transaction) : List FoundItem → List FoundItem
  | [] => []
  | scannedTx :: rest =>
    let r := uploadSuggested transactions rest
    match scannedTx.amount with
    | none => r
    | some a =>
      if a = 0 then r
      else if transactions.any (fun tx => decide (|(|a| - |tx.amount|)| < 0.01)) then r
      else scannedTx :: r

/-! ## Confirmation flow (`AiTools.tsx`, `confirmAddTransaction` lines 149–170) -/

/-- The component state touched by `confirmAddTransaction`: the app's
transaction list (via `onAddTransaction`, which prepends), the two AI lists,
and the modal selection state. -/
structure AiToolsState where
  transactions : List Transaction
  foundTransactions : List FoundItem
  matchedItems : List MatchedItemPair
  selectedItem : Option (FoundItem × String)
  selectedType : TxType
  selectedCategory : String
deriving DecidableEq, Repr

/-- The `newTx` record built by `confirmAddTransaction`. `nowId` stands for
the `local-${Date.now()}` id and `today` for `new Date().toISOString()`'s
date part, both host-environment values. -/
def mkNewTx (nowId today : String) (st : AiToolsState) (item : FoundItem) : Transaction :=
  let absoluteAmount := |item.amount.getD 0|
  let finalAmount := if st.selectedType = .income then absoluteAmount else -absoluteAmount
  { id := nowId
    date := jsOr item.date today
    amount := finalAmount
    category := st.selectedCategory
    note := some (jsOr item.note "Imported Statement Item")
    type := some st.selectedType
    source := some "PDF file" }

/-- Function `confirmAddTransaction`: early return when no item is selected; otherwise
prepend the new transaction (the parent's `handleAddTransaction` does
`[t, ...prev]`), mark the originating id as `added` in both AI lists, and
close the modal. -/
def confirmAddTransaction (nowId today : String) (st : AiToolsState) : AiToolsState :=
  match st.selectedItem with
  | none => st
  | some (item, originalId) =>
    let newTx := mkNewTx nowId today st item
    { st with
      transactions := newTx :: st.transactions
      foundTransactions := st.foundTransactions.map fun it =>
        if it.id = originalId then { it with added := true } else it
      matchedItems := st.matchedItems.map fun p =>
        if p.suggested.id = originalId then
          { p with suggested := { p.suggested with added := true } }
        else p
      selectedItem := none }

/-! ## Database edit modal (`Database.tsx`, `EditModal` lines 205–269) -/

/-- The category lists from `AppSettings` consumed by the edit modal. -/
structure AppSettings where
  incomeCategories : List String
  expenseCategories : List String
  investmentCategories : List String
deriving Repr

/-- Handler `EditModal.handleAmountChange`: re-sign the absolute value of the parsed
input according to the current type (`parseFloat(v) || 0`, then
`Math.abs`). `parseFloatQ` is the host's `parseFloat`, `none` = `NaN`. -/
def handleAmountChange (parseFloatQ : String → Option ℚ) (formData : Transaction)
    (value : String) : Transaction :=
  let absoluteAmount := |(parseFloatQ value).getD 0|
  let finalAmount := if formData.type = some .income then absoluteAmount else -absoluteAmount
  { formData with amount := finalAmount }

/-- Handler `EditModal.handleTypeChange`: re-sign the stored amount for the newly
selected type and reset the category to the first category of that type
(an empty category list is modelled as the empty string, standing for the
`undefined` that `cats[0]` yields there). -/
def handleTypeChange (settings : AppSettings) (formData : Transaction)
    (newType : TxType) : Transaction :=
  let absoluteAmount := |formData.amount|
  let newAmount := if newType = .income then absoluteAmount else -absoluteAmount
  let cats :=
    if newType = .expense then settings.expenseCategories
    else if newType = .income then settings.incomeCategories
    else settings.investmentCategories
  { formData with type := some newType, amount := newAmount, category := cats.getD 0 "" }

/-! ## Remote refresh (`App.tsx`, `handleRefreshFromSheet` lines 87–112) -/

/-- The `newTxsFromSheet` filter inside `handleRefreshFromSheet`: keep every
fetched transaction that is non-null (`t`), has a truthy id (`t.id`), and
whose id is not in the `existingIds` set. -/
def refreshNewTxs (prevTxs : List Transaction) (fetchedData : List (Option Transaction)) :
    List Transaction :=
  let existingIds := prevTxs.map (·.id)
  fetchedData.filterMap fun t? =>
    match t? with
    | none => none
    | some t => if t.id ≠ "" ∧ t.id ∉ existingIds then some t else none

/-- The `setTransactions` updater inside `handleRefreshFromSheet`: append the
qualifying fetched transactions (the source returns `prevTxs` unchanged when
none qualify, via an explicit branch). -/
def refreshMerge (prevTxs : List Transaction) (fetchedData : List (Option Transaction)) :
    List Transaction :=
  let newTxsFromSheet := refreshNewTxs prevTxs fetchedData
  if newTxsFromSheet.length > 0 then prevTxs ++ newTxsFromSheet else prevTxs

/-! ## Sheet service (`sheetService.ts`, `fetchTransactions` lines 25–106) -/

/-- Whether `pat` occurs as a contiguous sublist. -/
def hasSubList (pat : List Char) : List Char → Bool
  | [] => pat.isEmpty
  | c :: cs => pat.isPrefixOf (c :: cs) || hasSubList pat cs

/-- JavaScript `String.includes` (the needles used here are all non-empty). -/
def strContains (s pat : String) : Bool := hasSubList pat.toList s.toList

def DEFAULT_SHEET_ID : String := "1BScmi-6DI1Cj7VRMaKdpSVYyo2ibtHfkV3icz1OYBdM"

def DEFAULT_GID : String := "78662654"

/-- A character matched by the sheet-id regex class `[a-zA-Z0-9-_]`. -/
def idChar (c : Char) : Bool := c.isAlpha || c.isDigit || c = '-' || c = '_'

/-- The regex match `/\/d\/([a-zA-Z0-9-_]+)/`: the first occurrence of `/d/`
followed by at least one id character, returning the captured run. -/
def findIdRun : List Char → Option String
  | '/' :: 'd' :: '/' :: rest =>
    let run := rest.takeWhile idChar
    if run.isEmpty then findIdRun ('d' :: '/' :: rest) else some run.asString
  | _ :: rest => findIdRun rest
  | [] => none

/-- Whether `fetchTransactions` rewrites the URL to the CSV export and takes
the CSV branch: the URL mentions `docs.google.com` or equals the default
sheet id, and a non-null `sheetId` was derived (regex capture, or the default
id itself). The rewritten URL only feeds the `fetch` call, whose outcome is
an explicit parameter below, so its text is not reproduced here. -/
def isCsvSource (sheetUrlOrId : String) : Bool :=
  if strContains sheetUrlOrId "docs.google.com" || sheetUrlOrId = DEFAULT_SHEET_ID then
    match findIdRun sheetUrlOrId.toList with
    | some _ => true
    | none => sheetUrlOrId = DEFAULT_SHEET_ID
  else false

/-- The character loop of `parseCSVLine`: split on commas outside quotes,
quote characters toggle the flag and are dropped. -/
def csvSplit : List Char → Bool → List Char → List String
  | [], _, col => [col.reverse.asString]
  | c :: cs, quote, col =>
    if c = '"' then csvSplit cs (!quote) col
    else if c = ',' ∧ ¬ quote then col.reverse.asString :: csvSplit cs quote []
    else csvSplit cs quote (c :: col)

/-- The cleanup `.replace(/^"|"$/g, '')`: remove one leading and one trailing quote. -/
def stripOuterQuotes (s : String) : String :=
  let s1 := if s.startsWith "\"" then s.drop 1 else s
  if s1.endsWith "\"" then s1.dropRight 1 else s1

/-- Function `parseCSVLine` from `sheetService.ts`. -/
def parseCSVLine (str : String) : List String :=
  (csvSplit str.toList false []).map fun s => stripOuterQuotes s.trim

/-- A JSON row as consumed by the non-CSV branch; absent fields are modelled
as the empty string (both are falsy where the code tests them). -/
structure JsonTx where
  id : String := ""
  date : String := ""
  amount : String := ""
  category : String := ""
  note : String := ""
  source : String := ""
deriving DecidableEq, Repr

/-- The parsed JSON payload: either an array of rows, or an object whose
`data` field holds the rows (`none` when `data` is absent/falsy/not an
array of rows — all of which end in an empty result). -/
inductive JsonVal where
  | arr (rows : List JsonTx)
  | obj (dataField : Option (List JsonTx))
deriving Repr

/-- An HTTP response: `ok` status, text body (consumed by the CSV branch),
and the result of `res.json()` (`none` when it rejects). -/
structure HttpResponse where
  ok : Bool
  text : String
  json : Option JsonVal
deriving Repr

/-- Host-environment functions used by the embedded code.
`todayIso` is `new Date().toISOString().split('T')[0]`; `dateToIso s` is
`new Date(s)` followed by the same projection (`none` = invalid date);
`parseFloatQ` is `parseFloat` (`none` = `NaN`); `randId` stands for the
per-row `Math.random().toString(36).substr(2, 9)` draws. -/
structure JsEnv where
  todayIso : String
  dateToIso : String → Option String
  parseFloatQ : String → Option ℚ
  randId : Nat → String

/-- The cleanup `.replace(/[^0-9.-]+/g, "")`. -/
def cleanAmountChars (s : String) : String :=
  (s.toList.filter fun c => c.isDigit || c = '.' || c = '-').asString

/-- The CSV row mapper of `fetchTransactions` (`null` for short rows, filtered
out by `.filter(Boolean)`). Out-of-range column reads (`row[i]` =
`undefined`) interpolate as the string `"undefined"` and parse as `NaN`. -/
def csvRowToTx (env : JsEnv) (incomeCategories investmentCategories : List String)
    (dI aI cI nI : Nat) (idx : Nat) (row : List String) : Option Transaction :=
  if row.length < 2 then none
  else
    let amountStrOpt := (row.get? aI).map cleanAmountChars
    let dateStrOpt := row.get? dI
    let isoDate :=
      match dateStrOpt with
      | some ds => if ds ≠ "" then (env.dateToIso ds).getD env.todayIso else env.todayIso
      | none => env.todayIso
    let category := jsOr (row.get? cI) "Uncategorized"
    let dShown := dateStrOpt.getD "undefined"
    let aShown := amountStrOpt.getD "undefined"
    some
      { id := s!"csv-{idx}-{dShown}-{aShown}"
        date := isoDate
        amount := match amountStrOpt with
          | none => 0
          | some a => (env.parseFloatQ a).getD 0
        category := category
        note := some (jsOr (row.get? nI) "")
        type := some (getTransactionType category incomeCategories investmentCategories)
        source := some "IOS shortcut" }

/-- The JSON row mapper of `fetchTransactions` (`d.id || random`,
`d.source || 'app input'`; `parseFloat(d.amount)` yielding `NaN` is collapsed
to `0`, unrepresentable in ℚ — no verified claim reads fetched amounts). -/
def jsonToTx (env : JsEnv) (incomeCategories investmentCategories : List String)
    (idx : Nat) (d : JsonTx) : Transaction :=
  { id := if d.id = "" then env.randId idx else d.id
    date := d.date
    amount := (env.parseFloatQ d.amount).getD 0
    category := d.category
    note := some d.note
    type := some (getTransactionType d.category incomeCategories investmentCategories)
    source := some (if d.source = "" then "app input" else d.source) }

/-- Function `fetchTransactions` from `sheetService.ts`. The single `fetch` of the
(possibly rewritten) URL is modelled by the explicit `outcome` parameter
(`none` = network rejection); every throw inside the `try` lands in the
`catch`, which returns `[]`. -/
def fetchTransactions (env : JsEnv) (outcome : Option HttpResponse)
    (sheetUrlOrId : String) (incomeCategories investmentCategories : List String) :
    List Transaction :=
  let isCsv := isCsvSource sheetUrlOrId
  match outcome with
  | none => []
  | some res =>
    if ¬ res.ok then []
    else if isCsv then
      let rows := (res.text.splitOn "\n").map parseCSVLine
      if rows.length < 2 then []
      else
        let headers := (rows.headD []).map (·.toLower)
        let dateIdx := headers.findIdx? fun h => strContains h "date"
        let amountIdx := headers.findIdx? fun h =>
          strContains h "amount" || strContains h "cost" || strContains h "price"
        let catIdx := headers.findIdx? fun h =>
          strContains h "category" || strContains h "type"
        let noteIdx := headers.findIdx? fun h =>
          strContains h "note" || strContains h "desc" || strContains h "item"
        let dI := dateIdx.getD 0
        let aI := amountIdx.getD 1
        let cI := catIdx.getD 2
        let nI := noteIdx.getD 3
        (rows.drop 1).enum.filterMap fun p =>
          csvRowToTx env incomeCategories investmentCategories dI aI cI nI p.1 p.2
    else
      match res.json with
      | none => []
      | some data =>
        let items := match data with
          | .arr rows => rows
          | .obj d => d.getD []
        items.enum.map fun p => jsonToTx env incomeCategories investmentCategories p.1 p.2

/-! ## Characterization lemmas for the matcher -/

/-- Membership in the kept list: the item occurs in the input, is not
`added`, and no existing transaction matches it. -/
theorem mem_kept_iff (parse : String → Option Int) (txs : List Transaction) :
    ∀ (l : List FoundItem) (item : FoundItem),
      item ∈ (reanalyzeList parse txs l).kept ↔
        item ∈ l ∧ item.added = false ∧ txs.find? (isMatch parse item) = none
  | [], item => by simp [reanalyzeList]
  | it :: rest, item => by
    have ih := mem_kept_iff parse txs rest item
    rw [reanalyzeList]
    cases hadd : it.added with
    | true =>
      rw [if_pos rfl, ih, List.mem_cons]
      constructor
      · rintro ⟨h1, h2, h3⟩; exact ⟨Or.inr h1, h2, h3⟩
      · rintro ⟨h1 | h1, h2, h3⟩
        · subst h1; rw [hadd] at h2; cases h2
        · exact ⟨h1, h2, h3⟩
    | false =>
      rw [if_neg (by decide)]
      cases hfind : txs.find? (isMatch parse it) with
      | none =>
        simp only []
        simp only [List.mem_cons, ih]
        constructor
        · rintro (h | ⟨h1, h2, h3⟩)
          · subst h; exact ⟨Or.inl rfl, hadd, hfind⟩
          · exact ⟨Or.inr h1, h2, h3⟩
        · rintro ⟨h1 | h1, h2, h3⟩
          · subst h1; exact Or.inl rfl
          · exact Or.inr ⟨h1, h2, h3⟩
      | some tx =>
        simp only []
        rw [ih, List.mem_cons]
        constructor
        · rintro ⟨h1, h2, h3⟩; exact ⟨Or.inr h1, h2, h3⟩
        · rintro ⟨h1 | h1, h2, h3⟩
          · subst h1; rw [hfind] at h3; cases h3
          · exact ⟨h1, h2, h3⟩

/-- Membership in the newly-matched list: the suggested item occurs in the
input, is not `added`, and the paired transaction is exactly what
`transactions.find` returns for it. -/
theorem mem_newlyMatched_iff (parse : String → Option Int) (txs : List Transaction) :
    ∀ (l : List FoundItem) (p : MatchedItemPair),
      p ∈ (reanalyzeList parse txs l).newlyMatched ↔
        p.suggested ∈ l ∧ p.suggested.added = false ∧
          txs.find? (isMatch parse p.suggested) = some p.matched
  | [], p => by simp [reanalyzeList]
  | it :: rest, p => by
    have ih := mem_newlyMatched_iff parse txs rest p
    rw [reanalyzeList]
    cases hadd : it.added with
    | true =>
      rw [if_pos rfl, ih, List.mem_cons]
      constructor
      · rintro ⟨h1, h2, h3⟩; exact ⟨Or.inr h1, h2, h3⟩
      · rintro ⟨h1 | h1, h2, h3⟩
        · rw [h1, hadd] at h2; cases h2
        · exact ⟨h1, h2, h3⟩
    | false =>
      rw [if_neg (by decide)]
      cases hfind : txs.find? (isMatch parse it) with
      | none =>
        simp only []
        rw [ih, List.mem_cons]
        constructor
        · rintro ⟨h1, h2, h3⟩; exact ⟨Or.inr h1, h2, h3⟩
        · rintro ⟨h1 | h1, h2, h3⟩
          · rw [h1, hfind] at h3; cases h3
          · exact ⟨h1, h2, h3⟩
      | some tx =>
        simp only []
        simp only [List.mem_cons, ih]
        constructor
        · rintro (h | ⟨h1, h2, h3⟩)
          · rw [h]; exact ⟨Or.inl rfl, hadd, hfind⟩
          · exact ⟨Or.inr h1, h2, h3⟩
        · rintro ⟨h1 | h1, h2, h3⟩
          · left
            rw [h1] at h3
            rw [hfind] at h3
            injection h3 with h3
            cases p with
            | mk s m => simp only at h1 h3; rw [h1, h3]
          · exact Or.inr ⟨h1, h2, h3⟩

/-- The kept list is a subsequence of the input (order preserved). -/
theorem kept_sublist (parse : String → Option Int) (txs : List Transaction) :
    ∀ l : List FoundItem, (reanalyzeList parse txs l).kept.Sublist l
  | [] => by simp [reanalyzeList]
  | it :: rest => by
    rw [reanalyzeList]
    cases hadd : it.added with
    | true => exact (kept_sublist parse txs rest).cons it
    | false =>
      rw [if_neg (by decide)]
      cases hfind : txs.find? (isMatch parse it) with
      | none => exact (kept_sublist parse txs rest).cons₂ it
      | some tx => exact (kept_sublist parse txs rest).cons it

/-- The suggested components of the newly-matched pairs form a subsequence of
the input (order preserved). -/
theorem matched_suggested_sublist (parse : String → Option Int) (txs : List Transaction) :
    ∀ l : List FoundItem,
      ((reanalyzeList parse txs l).newlyMatched.map (·.suggested)).Sublist l
  | [] => by simp [reanalyzeList]
  | it :: rest => by
    rw [reanalyzeList]
    cases hadd : it.added with
    | true => exact (matched_suggested_sublist parse txs rest).cons it
    | false =>
      rw [if_neg (by decide)]
      cases hfind : txs.find? (isMatch parse it) with
      | none => exact (matched_suggested_sublist parse txs rest).cons it
      | some tx => exact (matched_suggested_sublist parse txs rest).cons₂ it

/-- Under the claims' side conditions (truthy amount, parseable candidate
date) the code's match predicate coincides with the specification's
criterion. -/
theorem isMatch_iff_specMatch (parse : String → Option Int) (item : FoundItem)
    (tx : Transaction) (a : ℚ) (t : Int) (hamt : item.amount = some a) (ha : a ≠ 0)
    (hdate : item.date.bind parse = some t) :
    isMatch parse item tx = true ↔ specMatch parse a t tx := by
  rw [isMatch, hamt, hdate]
  cases h2 : parse tx.date with
  | none =>
    simp only [specMatch, h2]
    constructor
    · intro h
      by_cases hc : a ≠ 0 ∧ |(|a| - |tx.amount|)| < 0.01 <;> simp [hc] at h
    · rintro ⟨-, u, hu, -⟩; cases hu
  | some u =>
    by_cases hc : |(|a| - |tx.amount|)| < 0.01
    · simp only [specMatch, h2, ha, hc, ne_eq, not_false_iff, true_and, if_pos]
      constructor
      · intro h
        exact ⟨u, rfl, by simpa using h⟩
      · rintro ⟨u', hu', h⟩
        injection hu' with hu'
        subst hu'
        simpa using h
    · constructor
      · intro h
        simp [hc] at h
      · rintro ⟨hcl, -⟩
        exact absurd hcl hc

/-- A concrete date-parse environment used by witnesses and counterexamples:
times in milliseconds, day 0 = 2024-01-01. -/
def demoParse : String → Option Int
  | "2024-01-01" => some 0
  | "2024-01-05" => some 345600000
  | "2024-02-01" => some 2678400000
  | "2023-01-01" => some (-31536000000)
  | _ => none

def demoTx : Transaction :=
  { id := "t1", date := "2024-01-05", amount := -5, category := "Lunch" }

def demoItem : FoundItem :=
  { id := "s1", date := some "2024-01-01", amount := some 5 }

/-- Same amount as `demoItem` but 31 days away: fails the day window. -/
def txOther : Transaction :=
  { id := "t0", date := "2024-02-01", amount := 5, category := "Dinner" }

/-- A second transaction matching `demoItem`, listed after `demoTx`. -/
def demoTx2 : Transaction :=
  { id := "t2", date := "2024-01-01", amount := 5, category := "Snacks" }

def itemNoAmount : FoundItem :=
  { id := "s2", date := some "2024-01-01" }

example : isMatch demoParse demoItem demoTx = true := by decide

example :
    reanalyzeList demoParse [demoTx] [demoItem] =
      ⟨[], [⟨demoItem, demoTx⟩]⟩ := by decide

example :
    reanalyzeList demoParse [] [demoItem] = ⟨[demoItem], []⟩ := by decide

/-- The existential forms of the match search agree: some listed transaction
satisfies the spec's criterion exactly when `transactions.find` succeeds. -/
theorem find_isSome_iff_specMatch (parse : String → Option Int) (txs : List Transaction)
    (item : FoundItem) (a : ℚ) (t : Int) (hamt : item.amount = some a) (ha : a ≠ 0)
    (hdate : item.date.bind parse = some t) :
    (txs.find? (isMatch parse item)).isSome = true ↔ ∃ tx ∈ txs, specMatch parse a t tx := by
  rw [List.find?_isSome]
  constructor
  · rintro ⟨tx, h1, h2⟩
    exact ⟨tx, h1, (isMatch_iff_specMatch parse item tx a t hamt ha hdate).1 h2⟩
  · rintro ⟨tx, h1, h2⟩
    exact ⟨tx, h1, (isMatch_iff_specMatch parse item tx a t hamt ha hdate).2 h2⟩

/-! ## Claim theorems -/

/-- C1: for every candidate (not yet confirmed, per the glossary) with a
truthy amount and a parseable date, `reanalyzeList` classifies it as matched
exactly when some existing transaction is within the `0.01` amount epsilon
and the ten-day window; otherwise it is kept as a new suggestion. -/
theorem C1_reanalyze_matched_iff (parse : String → Option Int) (txs : List Transaction)
    (l : List FoundItem) (item : FoundItem) (a : ℚ) (t : Int)
    (hmem : item ∈ l) (hadded : item.added = false)
    (hamt : item.amount = some a) (ha : a ≠ 0)
    (hdate : item.date.bind parse = some t) :
    ((∃ p ∈ (reanalyzeList parse txs l).newlyMatched, p.suggested = item) ↔
        ∃ tx ∈ txs, specMatch parse a t tx) ∧
      (item ∈ (reanalyzeList parse txs l).kept ↔
        ¬ ∃ tx ∈ txs, specMatch parse a t tx) := by
  have key := find_isSome_iff_specMatch parse txs item a t hamt ha hdate
  constructor
  · constructor
    · rintro ⟨p, hp, hps⟩
      rw [mem_newlyMatched_iff] at hp
      rw [← key]
      rw [hps] at hp
      rw [hp.2.2]
      rfl
    · intro h
      rw [← key] at h
      rcases Option.isSome_iff_exists.mp h with ⟨tx0, hfind⟩
      refine ⟨⟨item, tx0⟩, ?_, rfl⟩
      rw [mem_newlyMatched_iff]
      exact ⟨hmem, hadded, hfind⟩
  · rw [mem_kept_iff]
    constructor
    · rintro ⟨-, -, hfind⟩ hex
      rw [← key] at hex
      rw [hfind] at hex
      cases hex
    · intro h
      refine ⟨hmem, hadded, ?_⟩
      rw [← key] at h
      cases hfind : txs.find? (isMatch parse item) with
      | none => rfl
      | some tx => rw [hfind] at h; cases h rfl

/-- C1 witness: on the concrete one-candidate, one-transaction instance the
matched classification holds on both sides of the equivalence. -/
theorem C1_witness :
    ((∃ p ∈ (reanalyzeList demoParse [demoTx] [demoItem]).newlyMatched,
        p.suggested = demoItem) ↔ ∃ tx ∈ [demoTx], specMatch demoParse 5 0 tx) ∧
      (demoItem ∈ (reanalyzeList demoParse [demoTx] [demoItem]).kept ↔
        ¬ ∃ tx ∈ [demoTx], specMatch demoParse 5 0 tx) :=
  C1_reanalyze_matched_iff demoParse [demoTx] [demoItem] demoItem 5 0 (by decide)
    (by decide) (by decide) (by decide) (by decide)

/-- C3: when a matching transaction `tx` exists and nothing earlier in the
existing list matches, the candidate is paired with `tx` and with no other. -/
theorem C3_first_match_wins (parse : String → Option Int)
    (txs1 txs2 : List Transaction) (tx : Transaction)
    (l : List FoundItem) (item : FoundItem) (a : ℚ) (t : Int)
    (hmem : item ∈ l) (hadded : item.added = false)
    (hamt : item.amount = some a) (ha : a ≠ 0)
    (hdate : item.date.bind parse = some t)
    (hmatch : specMatch parse a t tx)
    (hbefore : ∀ tx' ∈ txs1, ¬ specMatch parse a t tx') :
    (⟨item, tx⟩ : MatchedItemPair) ∈
        (reanalyzeList parse (txs1 ++ tx :: txs2) l).newlyMatched ∧
      ∀ p ∈ (reanalyzeList parse (txs1 ++ tx :: txs2) l).newlyMatched,
        p.suggested = item → p.matched = tx := by
  have hfind : (txs1 ++ tx :: txs2).find? (isMatch parse item) = some tx := by
    induction txs1 with
    | nil =>
      simp only [List.nil_append]
      rw [List.find?_cons_of_pos _
        ((isMatch_iff_specMatch parse item tx a t hamt ha hdate).2 hmatch)]
    | cons hd tl ih =>
      rw [List.cons_append, List.find?_cons_of_neg]
      · exact ih fun tx' h => hbefore tx' (List.mem_cons_of_mem hd h)
      · intro hcontra
        exact hbefore hd (List.mem_cons_self hd tl)
          ((isMatch_iff_specMatch parse item hd a t hamt ha hdate).1 hcontra)
  constructor
  · rw [mem_newlyMatched_iff]
    exact ⟨hmem, hadded, hfind⟩
  · intro p hp hps
    rw [mem_newlyMatched_iff] at hp
    rw [hps] at hp
    have h2 := hp.2.2
    rw [hfind] at h2
    injection h2 with h2
    exact h2.symm

/-- C3 witness: with a non-matching transaction listed first, the candidate
is paired with the first matching one. -/
theorem C3_witness :
    (⟨demoItem, demoTx⟩ : MatchedItemPair) ∈
      (reanalyzeList demoParse ([txOther] ++ demoTx :: [demoTx2]) [demoItem]).newlyMatched :=
  (C3_first_match_wins demoParse [txOther] [demoTx2] demoTx [demoItem] demoItem 5 0
    (by decide) (by decide) (by decide) (by decide) (by decide)
    ⟨by decide, 345600000, by decide, by norm_num⟩
    (by
      intro tx' htx'
      rw [List.mem_singleton] at htx'
      subst htx'
      rintro ⟨-, u, hu, hle⟩
      have heq : demoParse txOther.date = some 2678400000 := by decide
      rw [heq] at hu
      injection hu with hu
      subst hu
      revert hle
      decide)).1

/-- C4: `reanalyzeList` partitions the not-yet-confirmed candidates: the kept
list and the suggested components of the matched pairs are order-preserving
subsequences of the input, each non-`added` candidate lands in exactly one of
the two, and the function's return value is the number of newly matched
pairs. -/
theorem C4_partition (parse : String → Option Int) (txs : List Transaction)
    (l : List FoundItem) :
    (reanalyzeList parse txs l).kept.Sublist l ∧
      ((reanalyzeList parse txs l).newlyMatched.map (·.suggested)).Sublist l ∧
      (∀ item ∈ l, item.added = false →
        (item ∈ (reanalyzeList parse txs l).kept ∧
            ¬ ∃ p ∈ (reanalyzeList parse txs l).newlyMatched, p.suggested = item) ∨
          (item ∉ (reanalyzeList parse txs l).kept ∧
            ∃ p ∈ (reanalyzeList parse txs l).newlyMatched, p.suggested = item)) ∧
      reanalyzeRet parse txs l = (reanalyzeList parse txs l).newlyMatched.length := by
  refine ⟨kept_sublist parse txs l, matched_suggested_sublist parse txs l, ?_, rfl⟩
  intro item hmem hadded
  cases hfind : txs.find? (isMatch parse item) with
  | none =>
    left
    constructor
    · rw [mem_kept_iff]; exact ⟨hmem, hadded, hfind⟩
    · rintro ⟨p, hp, hps⟩
      rw [mem_newlyMatched_iff] at hp
      rw [hps] at hp
      rw [hfind] at hp
      cases hp.2.2
  | some tx =>
    right
    constructor
    · rw [mem_kept_iff]
      rintro ⟨-, -, hnone⟩
      rw [hfind] at hnone
      cases hnone
    · refine ⟨⟨item, tx⟩, ?_, rfl⟩
      rw [mem_newlyMatched_iff]
      exact ⟨hmem, hadded, hfind⟩

/-- C4 witness: on the concrete instance the candidate lands in exactly one
side of the partition. -/
theorem C4_witness :
    (demoItem ∈ (reanalyzeList demoParse [demoTx] [demoItem]).kept ∧
        ¬ ∃ p ∈ (reanalyzeList demoParse [demoTx] [demoItem]).newlyMatched,
          p.suggested = demoItem) ∨
      (demoItem ∉ (reanalyzeList demoParse [demoTx] [demoItem]).kept ∧
        ∃ p ∈ (reanalyzeList demoParse [demoTx] [demoItem]).newlyMatched,
          p.suggested = demoItem) :=
  (C4_partition demoParse [demoTx] [demoItem]).2.2.1 demoItem (by decide) (by decide)

/-- C7: a candidate with a missing or zero amount, or an unparseable date, or
compared only against transactions with unparseable dates, is never matched:
it always stays in the kept output. -/
theorem C7_nan_guard (parse : String → Option Int) (txs : List Transaction)
    (l : List FoundItem) (item : FoundItem)
    (hmem : item ∈ l) (hadded : item.added = false)
    (hbad : item.amount = none ∨ item.amount = some 0 ∨ item.date.bind parse = none ∨
      ∀ tx ∈ txs, parse tx.date = none) :
    item ∈ (reanalyzeList parse txs l).kept ∧
      ¬ ∃ p ∈ (reanalyzeList parse txs l).newlyMatched, p.suggested = item := by
  have hfalse : ∀ tx ∈ txs, isMatch parse item tx = false := by
    intro tx htx
    rcases hbad with h | h | h | h
    · simp [isMatch, h]
    · simp [isMatch, h]
    · rw [isMatch]
      cases hamt : item.amount with
      | none => rfl
      | some a =>
        rw [h]
        cases parse tx.date <;> simp
    · rw [isMatch]
      cases hamt : item.amount with
      | none => rfl
      | some a =>
        rw [h tx htx]
        cases item.date.bind parse <;> simp
  have hfind : txs.find? (isMatch parse item) = none :=
    List.find?_eq_none.mpr fun tx htx => by simp [hfalse tx htx]
  constructor
  · rw [mem_kept_iff]; exact ⟨hmem, hadded, hfind⟩
  · rintro ⟨p, hp, hps⟩
    rw [mem_newlyMatched_iff] at hp
    rw [hps] at hp
    rw [hfind] at hp
    cases hp.2.2

/-- C7 witness: a candidate with no amount is kept. -/
theorem C7_witness :
    itemNoAmount ∈ (reanalyzeList demoParse [demoTx] [itemNoAmount]).kept ∧
      ¬ ∃ p ∈ (reanalyzeList demoParse [demoTx] [itemNoAmount]).newlyMatched,
        p.suggested = itemNoAmount :=
  C7_nan_guard demoParse [demoTx] [itemNoAmount] itemNoAmount (by decide) (by decide)
    (Or.inl (by decide))

/-- Membership in the upload-time suggestion list: the scanned item occurs in
the input, has a truthy amount, and no existing transaction is within the
amount epsilon. -/
theorem mem_uploadSuggested_iff (txs : List Transaction) :
    ∀ (l : List FoundItem) (s : FoundItem),
      s ∈ uploadSuggested txs l ↔
        s ∈ l ∧ ∃ a, s.amount = some a ∧ a ≠ 0 ∧
          txs.any (fun tx => decide (|(|a| - |tx.amount|)| < 0.01)) = false
  | [], s => by simp [uploadSuggested]
  | it :: rest, s => by
    have ih := mem_uploadSuggested_iff txs rest s
    rw [uploadSuggested]
    cases hamt : it.amount with
    | none =>
      simp only []
      rw [ih, List.mem_cons]
      constructor
      · rintro ⟨h1, h2⟩; exact ⟨Or.inr h1, h2⟩
      · rintro ⟨h1 | h1, a, h2, h3⟩
        · rw [h1, hamt] at h2; cases h2
        · exact ⟨h1, a, h2, h3⟩
    | some a =>
      simp only []
      by_cases hz : a = 0
      · rw [if_pos hz, ih, List.mem_cons]
        constructor
        · rintro ⟨h1, h2⟩; exact ⟨Or.inr h1, h2⟩
        · rintro ⟨h1 | h1, b, h2, h3, h4⟩
          · rw [h1, hamt] at h2
            injection h2 with h2
            rw [← h2, hz] at h3
            cases h3 rfl
          · exact ⟨h1, b, h2, h3, h4⟩
      · rw [if_neg hz]
        cases hany : txs.any (fun tx => decide (|(|a| - |tx.amount|)| < 0.01)) with
        | true =>
          rw [if_pos rfl, ih, List.mem_cons]
          constructor
          · rintro ⟨h1, h2⟩; exact ⟨Or.inr h1, h2⟩
          · rintro ⟨h1 | h1, b, h2, h3, h4⟩
            · rw [h1, hamt] at h2
              injection h2 with h2
              rw [← h2] at h4
              rw [hany] at h4
              cases h4
            · exact ⟨h1, b, h2, h3, h4⟩
        | false =>
          rw [if_neg (by simp [hany])]
          rw [List.mem_cons, ih, List.mem_cons]
          constructor
          · rintro (h | ⟨h1, h2⟩)
            · subst h; exact ⟨Or.inl rfl, a, hamt, hz, hany⟩
            · exact ⟨Or.inr h1, h2⟩
          · rintro ⟨h1 | h1, h2⟩
            · exact Or.inl h1
            · exact Or.inr ⟨h1, h2⟩

def itemC2 : FoundItem :=
  { id := "c2", date := some "2023-01-01", amount := some 5 }

def itemC2big : FoundItem :=
  { id := "c2b", date := some "2024-01-01", amount := some 70 }

def txC2 : Transaction :=
  { id := "e2", date := "2024-01-01", amount := 5, category := "Lunch" }

/-- C2 counterexample: `itemC2` (amount `5`, dated 2023-01-01) is excluded
from the upload-time suggestions because `txC2` has the same amount, although
no existing transaction is within both the amount epsilon and the ten-day
window (`txC2` is a year away) — so exclusion is not equivalent to the
claimed amount-and-date criterion. -/
theorem C2_counterexample :
    itemC2 ∉ uploadSuggested [txC2] [itemC2] ∧
      ¬ specMatch demoParse 5 (-31536000000) txC2 := by
  constructor
  · decide
  · rintro ⟨-, u, hu, hle⟩
    have heq : demoParse txC2.date = some 0 := by decide
    rw [heq] at hu
    injection hu with hu
    subst hu
    revert hle
    decide

/-- C2 amended: at upload time a scanned candidate with a truthy amount is
kept as a new suggestion exactly when no existing transaction has an absolute
amount within `0.01` of it — the date plays no role in this filter. -/
theorem C2_amended_amount_only (txs : List Transaction) (results : List FoundItem)
    (s : FoundItem) (a : ℚ) (hmem : s ∈ results) (hamt : s.amount = some a) (ha : a ≠ 0) :
    s ∈ uploadSuggested txs results ↔
      ¬ ∃ tx ∈ txs, |(|a| - |tx.amount|)| < 0.01 := by
  rw [mem_uploadSuggested_iff]
  constructor
  · rintro ⟨-, b, hb, -, hany⟩ hex
    rw [hamt] at hb
    injection hb with hb
    subst hb
    rcases hex with ⟨tx, htx, hlt⟩
    have : txs.any (fun tx => decide (|(|a| - |tx.amount|)| < 0.01)) = true :=
      List.any_eq_true.mpr ⟨tx, htx, by simpa using hlt⟩
    rw [this] at hany
    cases hany
  · intro hnone
    refine ⟨hmem, a, hamt, ha, ?_⟩
    cases hany : txs.any (fun tx => decide (|(|a| - |tx.amount|)| < 0.01)) with
    | false => rfl
    | true =>
      rcases List.any_eq_true.mp hany with ⟨tx, htx, hlt⟩
      exact absurd ⟨tx, htx, by simpa using hlt⟩ hnone

/-- C2 amended witness: a scanned amount of `70` survives the filter against
a single existing transaction of amount `5`. -/
theorem C2_amended_witness :
    itemC2big ∈ uploadSuggested [txC2] [itemC2big] ↔
      ¬ ∃ tx ∈ [txC2], |(|(70 : ℚ)| - |tx.amount|)| < 0.01 :=
  C2_amended_amount_only [txC2] [itemC2big] itemC2big 70 (by decide) (by decide) (by decide)

/-- A concrete host environment for witnesses. -/
def demoEnv : JsEnv :=
  { todayIso := "2024-01-01"
    dateToIso := fun _ => none
    parseFloatQ := fun _ => none
    randId := fun _ => "rnd" }

/-- C5: `fetchTransactions` swallows every failure: a rejected fetch, a
non-ok response, and a failed JSON parse each produce the empty list, and a
non-empty result can only arise from an ok response that parsed (the CSV
branch's `res.text()` cannot fail). -/
theorem C5_fetch_error_handling (env : JsEnv) (outcome : Option HttpResponse)
    (url : String) (inc inv : List String) :
    (outcome = none → fetchTransactions env outcome url inc inv = []) ∧
      (∀ r, outcome = some r → r.ok = false →
        fetchTransactions env outcome url inc inv = []) ∧
      (∀ r, outcome = some r → isCsvSource url = false → r.json = none →
        fetchTransactions env outcome url inc inv = []) ∧
      (fetchTransactions env outcome url inc inv ≠ [] →
        ∃ r, outcome = some r ∧ r.ok = true ∧
          (isCsvSource url = true ∨ ∃ j, r.json = some j)) := by
  refine ⟨?_, ?_, ?_, ?_⟩
  · intro h; rw [h]; rfl
  · intro r hr hok
    rw [hr]
    rw [fetchTransactions]
    simp [hok]
  · intro r hr hcsv hjson
    rw [hr]
    rw [fetchTransactions]
    rcases hokc : r.ok with _ | _
    · simp [hokc]
    · simp [hokc, hcsv, hjson]
  · intro hne
    cases houtc : outcome with
    | none => rw [houtc] at hne; exact absurd rfl hne
    | some r =>
      refine ⟨r, rfl, ?_, ?_⟩
      · rcases hokc : r.ok with _ | _
        · rw [houtc] at hne
          rw [fetchTransactions] at hne
          simp [hokc] at hne
        · rfl
      · rcases hcsvc : isCsvSource url with _ | _
        · right
          cases hjsonc : r.json with
          | none =>
            rw [houtc] at hne
            rw [fetchTransactions] at hne
            rcases hokc : r.ok with _ | _
            · simp [hokc] at hne
            · simp [hokc, hcsvc, hjsonc] at hne
          | some j => exact ⟨j, rfl⟩
        · left; rfl

/-- C5 witness: a rejected fetch, a non-ok response and a JSON parse failure
each yield the empty list on concrete inputs. -/
theorem C5_witness :
    fetchTransactions demoEnv none "u" [] [] = [] ∧
      fetchTransactions demoEnv (some ⟨false, "", none⟩) "u" [] [] = [] ∧
      fetchTransactions demoEnv (some ⟨true, "", none⟩) "u" [] [] = [] :=
  ⟨(C5_fetch_error_handling demoEnv none "u" [] []).1 rfl,
    (C5_fetch_error_handling demoEnv (some ⟨false, "", none⟩) "u" [] []).2.1
      ⟨false, "", none⟩ rfl rfl,
    (C5_fetch_error_handling demoEnv (some ⟨true, "", none⟩) "u" [] []).2.2.1
      ⟨true, "", none⟩ rfl (by decide) rfl⟩

/-- C6: confirming a suggested item prepends exactly the one new transaction
(with the candidate's absolute amount, signed by the chosen type), leaves
every pre-existing transaction in place, and marks exactly the candidates
with the originating id as `added` in both AI lists, leaving all others
untouched. -/
theorem C6_confirm_frame (nowId today : String) (st : AiToolsState)
    (item : FoundItem) (originalId : String)
    (hsel : st.selectedItem = some (item, originalId)) :
    (confirmAddTransaction nowId today st).transactions =
        mkNewTx nowId today st item :: st.transactions ∧
      (mkNewTx nowId today st item).amount =
        (if st.selectedType = .income then |item.amount.getD 0|
          else -|item.amount.getD 0|) ∧
      (∀ n, (confirmAddTransaction nowId today st).foundTransactions.get? n =
        (st.foundTransactions.get? n).map fun it =>
          if it.id = originalId then { it with added := true } else it) ∧
      (∀ n, (confirmAddTransaction nowId today st).matchedItems.get? n =
        (st.matchedItems.get? n).map fun p =>
          if p.suggested.id = originalId then
            { p with suggested := { p.suggested with added := true } }
          else p) ∧
      (∀ n it, st.foundTransactions.get? n = some it → it.id ≠ originalId →
        (confirmAddTransaction nowId today st).foundTransactions.get? n = some it) ∧
      (∀ n p, st.matchedItems.get? n = some p → p.suggested.id ≠ originalId →
        (confirmAddTransaction nowId today st).matchedItems.get? n = some p) := by
  have h3 : ∀ n, (confirmAddTransaction nowId today st).foundTransactions.get? n =
      (st.foundTransactions.get? n).map fun it =>
        if it.id = originalId then { it with added := true } else it := by
    rw [confirmAddTransaction, hsel]
    intro n
    exact List.get?_map _ _ _
  have h4 : ∀ n, (confirmAddTransaction nowId today st).matchedItems.get? n =
      (st.matchedItems.get? n).map fun p =>
        if p.suggested.id = originalId then
          { p with suggested := { p.suggested with added := true } }
        else p := by
    rw [confirmAddTransaction, hsel]
    intro n
    exact List.get?_map _ _ _
  refine ⟨?_, rfl, h3, h4, ?_, ?_⟩
  · rw [confirmAddTransaction, hsel]
  · intro n it hget hid
    rw [h3 n, hget]
    show some (if it.id = originalId then { it with added := true } else it) = some it
    rw [if_neg hid]
  · intro n p hget hid
    rw [h4 n, hget]
    show some (if p.suggested.id = originalId then
        { p with suggested := { p.suggested with added := true } } else p) = some p
    rw [if_neg hid]

/-- A concrete state with `demoItem` selected as an expense. -/
def stDemo : AiToolsState :=
  { transactions := [demoTx]
    foundTransactions := [demoItem, itemNoAmount]
    matchedItems := []
    selectedItem := some (demoItem, "s1")
    selectedType := .expense
    selectedCategory := "Lunch" }

/-- C6 witness: on the concrete state, the new transaction is prepended and
the unrelated candidate is untouched. -/
theorem C6_witness :
    (confirmAddTransaction "local-1" "2024-01-01" stDemo).transactions =
        mkNewTx "local-1" "2024-01-01" stDemo demoItem :: stDemo.transactions ∧
      (confirmAddTransaction "local-1" "2024-01-01" stDemo).foundTransactions.get? 1 =
        some itemNoAmount :=
  ⟨(C6_confirm_frame "local-1" "2024-01-01" stDemo demoItem "s1" rfl).1,
    (C6_confirm_frame "local-1" "2024-01-01" stDemo demoItem "s1" rfl).2.2.2.2.1 1
      itemNoAmount rfl (by decide)⟩

/-- Function `refreshMerge` always equals the plain append (appending nothing when the
filter is empty). -/
theorem refreshMerge_eq_append (prevTxs : List Transaction)
    (fetchedData : List (Option Transaction)) :
    refreshMerge prevTxs fetchedData = prevTxs ++ refreshNewTxs prevTxs fetchedData := by
  rw [refreshMerge]
  cases hlen : refreshNewTxs prevTxs fetchedData with
  | nil => simp
  | cons hd tl => simp

/-- C8: refreshing never modifies or removes an existing transaction — every
position below the old length is unchanged — and every appended transaction
comes from the fetched data, is non-null with a truthy id, and its id was not
already present. -/
theorem C8_refresh_frame (prevTxs : List Transaction)
    (fetchedData : List (Option Transaction)) :
    (∀ n, n < prevTxs.length →
        (refreshMerge prevTxs fetchedData).get? n = prevTxs.get? n) ∧
      (∀ tx ∈ prevTxs, tx ∈ refreshMerge prevTxs fetchedData) ∧
      (∀ tx ∈ refreshMerge prevTxs fetchedData,
        tx ∈ prevTxs ∨
          (some tx ∈ fetchedData ∧ tx.id ≠ "" ∧ tx.id ∉ prevTxs.map (·.id))) := by
  rw [refreshMerge_eq_append]
  refine ⟨?_, ?_, ?_⟩
  · intro n hn
    exact List.get?_append hn
  · intro tx htx
    exact List.mem_append_left _ htx
  · intro tx htx
    rcases List.mem_append.mp htx with h | h
    · exact Or.inl h
    · right
      rw [refreshNewTxs] at h
      rcases List.mem_filterMap.mp h with ⟨t?, ht?, heq⟩
      cases t? with
      | none => cases heq
      | some t =>
        simp only [] at heq
        by_cases hc : t.id ≠ "" ∧ t.id ∉ prevTxs.map (·.id)
        · rw [if_pos hc] at heq
          injection heq with heq
          subst heq
          exact ⟨ht?, hc.1, hc.2⟩
        · rw [if_neg hc] at heq
          cases heq

/-- A fetched transaction with a fresh id. -/
def txFresh : Transaction :=
  { id := "t9", date := "2024-01-01", amount := 3, category := "Snacks" }

/-- C8 witness: on a concrete refresh, position 0 still holds the old
transaction, and the appended transaction satisfies the filter conditions. -/
theorem C8_witness :
    (refreshMerge [demoTx] [some txFresh, none]).get? 0 = [demoTx].get? 0 ∧
      (txFresh ∈ [demoTx] ∨
        (some txFresh ∈ [some txFresh, none] ∧ txFresh.id ≠ "" ∧
          txFresh.id ∉ [demoTx].map (·.id))) :=
  ⟨(C8_refresh_frame [demoTx] [some txFresh, none]).1 0 (by decide),
    (C8_refresh_frame [demoTx] [some txFresh, none]).2.2 txFresh (by decide)⟩

/-- The amended sign-convention invariant: income transactions carry a
non-negative amount and all others a non-positive one (the biconditional of
the original claim fails at zero amounts). -/
def signOK (tx : Transaction) : Prop :=
  (tx.type = some TxType.income → 0 ≤ tx.amount) ∧
    (tx.type ≠ some TxType.income → tx.amount ≤ 0)

def itemC9 : FoundItem := { id := "s9" }

/-- An income-typed form state in the edit modal. -/
def txIncomeForm : Transaction :=
  { id := "t5", date := "2024-01-01", amount := 12, category := "Employment",
    type := some TxType.income }

/-- A confirm-flow state whose selected candidate has no extracted amount and
whose chosen type is expense. -/
def stC9 : AiToolsState :=
  { transactions := []
    foundTransactions := [itemC9]
    matchedItems := []
    selectedItem := some (itemC9, "s9")
    selectedType := .expense
    selectedCategory := "Lunch" }

/-- C9 counterexample: confirming an expense candidate with a missing amount
stores amount `0` (JavaScript `-0`), which is non-negative while the type is
not income — refuting "non-negative amount iff income". -/
theorem C9_counterexample :
    (confirmAddTransaction "local-1" "2024-01-01" stC9).transactions =
        [mkNewTx "local-1" "2024-01-01" stC9 itemC9] ∧
      (mkNewTx "local-1" "2024-01-01" stC9 itemC9).type = some TxType.expense ∧
      (mkNewTx "local-1" "2024-01-01" stC9 itemC9).amount = 0 ∧
      ¬ (0 ≤ (mkNewTx "local-1" "2024-01-01" stC9 itemC9).amount ↔
          (mkNewTx "local-1" "2024-01-01" stC9 itemC9).type = some TxType.income) := by
  refine ⟨rfl, rfl, by decide, ?_⟩
  intro h
  have h0 : (0 : ℚ) ≤ (mkNewTx "local-1" "2024-01-01" stC9 itemC9).amount := by decide
  have := h.1 h0
  cases this

/-- C9 amended: every transaction produced by the AI-import confirmation and
every state of the edit modal after an amount edit or a type change satisfies
the sign convention: non-negative when income, non-positive otherwise. -/
theorem C9_sign_convention :
    (∀ nowId today st item, signOK (mkNewTx nowId today st item)) ∧
      (∀ parseFloatQ formData value, signOK (handleAmountChange parseFloatQ formData value)) ∧
      (∀ settings formData newType, signOK (handleTypeChange settings formData newType)) := by
  refine ⟨?_, ?_, ?_⟩
  · intro nowId today st item
    constructor
    · intro hty
      rw [mkNewTx] at hty ⊢
      simp only [] at hty ⊢
      injection hty with hty
      rw [if_pos hty]
      exact abs_nonneg _
    · intro hty
      rw [mkNewTx] at hty ⊢
      simp only [] at hty ⊢
      rw [if_neg]
      · exact neg_nonpos.mpr (abs_nonneg _)
      · intro hc
        exact hty (by rw [hc])
  · intro parseFloatQ formData value
    constructor
    · intro hty
      rw [handleAmountChange] at hty ⊢
      simp only [] at hty ⊢
      rw [if_pos hty]
      exact abs_nonneg _
    · intro hty
      rw [handleAmountChange] at hty ⊢
      simp only [] at hty ⊢
      rw [if_neg hty]
      exact neg_nonpos.mpr (abs_nonneg _)
  · intro settings formData newType
    constructor
    · intro hty
      rw [handleTypeChange] at hty ⊢
      simp only [] at hty ⊢
      injection hty with hty
      rw [if_pos hty]
      exact abs_nonneg _
    · intro hty
      rw [handleTypeChange] at hty ⊢
      simp only [] at hty ⊢
      rw [if_neg]
      · exact neg_nonpos.mpr (abs_nonneg _)
      · intro hc
        exact hty (by rw [hc])

/-- C9 witness: an income-typed amount edit yields a non-negative amount, and
an expense-typed confirm yields a non-positive one. -/
theorem C9_witness :
    (0 : ℚ) ≤ (handleAmountChange demoEnv.parseFloatQ txIncomeForm "12").amount ∧
      (mkNewTx "local-1" "2024-01-01" stC9 itemC9).amount ≤ 0 :=
  ⟨(C9_sign_convention.2.1 demoEnv.parseFloatQ txIncomeForm "12").1 (by decide),
    (C9_sign_convention.1 "local-1" "2024-01-01" stC9 itemC9).2 (by decide)⟩

end ExpenseTracker
